import Mathlib

/-!
Verification of the Protostar folding core (halo2_proofs/src/protostar).

Shallow embedding conventions:
- the scalar field of the curve is an abstract field `F`;
- curve points (commitments) are an abstract additive commutative group `G`
  with an `F`-module structure; Rust's `point * scalar` becomes `scalar • point`
  and `to_affine` is the identity (the embedding does not distinguish the
  affine and projective representations of the same group element);
- the Fiat-Shamir transcript is a triple of streams: points to be read,
  scalars to be read, and the challenges the sponge would squeeze (squeezing
  never fails; an exhausted challenge stream yields 0, which no theorem below
  relies on);
- Rust `Vec` indexing that can panic is modelled with `Option` (`none` = panic)
  where a claim depends on the panic, and with a `getD` default where the
  surrounding claim constrains the index to be in range;
- Rust machine integers: row indices are `Nat`, rotations are `Int`; the
  `as i32` casts and i32 additions of the rotation helpers are modelled with
  an explicit wrap at 2^32, and the `as usize` cast with a wrap at 2^64.
-/

namespace Protostar

/-- Mirrors Rust's `zip(xs.iter_mut(), ys.iter())` update pattern: the
function is applied to the common prefix and the remaining elements of the
first (mutated) list are kept unchanged. -/
def zipWithKeep {α : Type} (f : α → α → α) : List α → List α → List α
  | xs, [] => xs
  | [], _ => []
  | x :: xs, y :: ys => f x y :: zipWithKeep f xs ys

/-- The Fiat-Shamir transcript as seen by the verifier: streams of points and
scalars written by the prover, plus the stream of challenges the sponge
squeezes. -/
structure Transcript (F G : Type) where
  points : List G
  scalars : List F
  challenges : List F
  deriving DecidableEq

variable {F G : Type} [Field F] [AddCommGroup G] [Module F G]

/-- Mirrors `transcript.read_point()`: `none` models the transcript error. -/
def readPoint (tr : Transcript F G) : Option (G × Transcript F G) :=
  match tr.points with
  | [] => none
  | p :: rest => some (p, { tr with points := rest })

/-- Mirrors `transcript.read_scalar()`: `none` models the transcript error. -/
def readScalar (tr : Transcript F G) : Option (F × Transcript F G) :=
  match tr.scalars with
  | [] => none
  | s :: rest => some (s, { tr with scalars := rest })

/-- Mirrors `transcript.squeeze_challenge_scalar()`; squeezing cannot fail. -/
def squeezeChallenge (tr : Transcript F G) : F × Transcript F G :=
  match tr.challenges with
  | [] => (0, tr)
  | c :: rest => (c, { tr with challenges := rest })

/-- Reading `n` scalars one by one, as the `for e_commitment in
e_commitments.iter_mut()` loop of `VerifierAccumulator::fold` does. -/
def readScalars (tr : Transcript F G) : Nat → Option (List F × Transcript F G)
  | 0 => some ([], tr)
  | Nat.succ n =>
    match readScalar tr with
    | none => none
    | some (s, tr1) =>
      match readScalars tr1 n with
      | none => none
      | some (ss, tr2) => some (s :: ss, tr2)

/-- Reading `n` points one by one, as the `for m_commitment in
m_commitments.iter_mut()` loop of `new_from_prover` does. -/
def readPoints (tr : Transcript F G) : Nat → Option (List G × Transcript F G)
  | 0 => some ([], tr)
  | Nat.succ n =>
    match readPoint tr with
    | none => none
    | some (p, tr1) =>
      match readPoints tr1 n with
      | none => none
      | some (ps, tr2) => some (p :: ps, tr2)

/-- Modelled from the spec: `arithmetic::powers` (arithmetic.rs is not among
the sources); the infinite sequence 1, x, x^2, ... of which callers `take` a
prefix. -/
def powersTake (x : F) (n : Nat) : List F :=
  (List.range n).map (fun i => x ^ i)

/-- Modelled from the spec: `arithmetic::eval_polynomial` (arithmetic.rs is
not among the sources) evaluates a polynomial given in ascending coefficient
order via Horner's rule. -/
def evalPolynomial (coeffs : List F) (x : F) : F :=
  coeffs.foldr (fun c acc => c + x * acc) 0

/-- Mirrors `protostar::verifier::LookupAccumulator`. -/
structure LookupAccumulator (F G : Type) where
  m : G
  r : F
  thetas : List F
  g : G
  h : G
  deriving DecidableEq

/-- Mirrors `protostar::verifier::VerifierAccumulator`; the source field
`instance` is renamed `instance_` because `instance` is a Lean keyword. -/
structure VerifierAccumulator (F G : Type) where
  instance_ : List (List F)
  advice : List G
  challenges : List F
  lookup_accumulators : List (LookupAccumulator F G)
  beta : F
  beta_commitment : G
  beta_error : G
  ys : List F
  error : F
  deriving DecidableEq

/-- Modelled from the spec: the shape data of the proving key consumed by the
verifier (`keygen.rs` and the plonk `ConstraintSystem` are not among the
sources); the fields follow the proving-key contract of the spec. Each entry
of `lookups` is the `input_expressions().len()` of one lookup argument. -/
structure PkShape where
  num_instance_columns : Nat
  num_advice_columns : Nat
  num_challenges : Nat
  phases : List Nat
  advice_column_phase : List Nat
  challenge_phase : List Nat
  lookups : List Nat
  num_folding_constraints : Nat
  max_folding_constraints_degree : Nat
  deriving DecidableEq

/-- Mirrors the inner `fold_commitments` helper of `VerifierAccumulator::fold`:
`((*acc1_c - *self_c) * alpha + *self_c).to_affine()` on each common entry. -/
def foldCommitments (self_commitments acc1_commitments : List G) (alpha : F) : List G :=
  zipWithKeep (fun self_c acc1_c => alpha • (acc1_c - self_c) + self_c)
    self_commitments acc1_commitments

/-- Mirrors the state update of `VerifierAccumulator::fold` (verifier.rs lines
194-266) once the quotient coefficients `e_commitments` have been read and
`alpha` has been squeezed: the error update, the instance fold (note the
source multiplies by `i1`, not by `alpha`), the commitment folds, the lookup
folds, the `beta_error` cross-term update (note the source multiplies
`error1` by `ONE`, not by `alpha`), and the `beta`, `beta_commitment`,
`challenges` and `ys` folds. -/
def VerifierAccumulator.foldWith (acc0 acc1 : VerifierAccumulator F G)
    (e_commitments : List F) (alpha : F) : VerifierAccumulator F G :=
  let quotient_final_error_poly := evalPolynomial e_commitments alpha
  let final_error := alpha * (1 - alpha) * quotient_final_error_poly
    + (1 - alpha) * acc0.error + alpha * acc1.error
  { instance_ := zipWithKeep
      (fun instance0 instance1 =>
        zipWithKeep (fun i0 i1 => (i1 - i0) * i1 + i0) instance0 instance1)
      acc0.instance_ acc1.instance_
    advice := foldCommitments acc0.advice acc1.advice alpha
    lookup_accumulators := zipWithKeep
      (fun self_lookup acc1_lookup =>
        { m := alpha • (acc1_lookup.m - self_lookup.m) + self_lookup.m
          g := alpha • (acc1_lookup.g - self_lookup.g) + self_lookup.g
          h := alpha • (acc1_lookup.h - self_lookup.h) + self_lookup.h
          r := (acc1_lookup.r - self_lookup.r) * alpha + self_lookup.r
          thetas := zipWithKeep (fun theta0 theta1 => (theta1 - theta0) * alpha + theta0)
            self_lookup.thetas acc1_lookup.thetas })
      acc0.lookup_accumulators acc1.lookup_accumulators
    beta_error :=
      (1 - alpha) • acc0.beta_error + (1 : F) • acc1.beta_error
        + ((1 - alpha) * alpha) •
            ((acc1.beta - acc0.beta) • acc0.beta_commitment
              + (acc0.beta - acc1.beta) • acc1.beta_commitment)
    beta := (acc1.beta - acc0.beta) * alpha + acc0.beta
    beta_commitment := alpha • (acc1.beta_commitment - acc0.beta_commitment)
      + acc0.beta_commitment
    challenges := zipWithKeep (fun self_c acc1_c => (acc1_c - self_c) * alpha + self_c)
      acc0.challenges acc1.challenges
    ys := zipWithKeep (fun y0 y1 => (y1 - y0) * alpha + y0) acc0.ys acc1.ys
    error := final_error }

/-- Mirrors `VerifierAccumulator::fold`. The quotient length is
`max_folding_constraints_degree() + 1 - 2`; the two-step `usize` subtraction
underflows when the degree is 0, modelled by the guard. Every transcript read
is `.unwrap()`ed in the source, so a failed read is a panic: the whole
operation returns `none` and no error value can reach the caller (the Rust
signature returns `()`). -/
def VerifierAccumulator.fold (acc0 acc1 : VerifierAccumulator F G) (pk : PkShape)
    (tr : Transcript F G) : Option (VerifierAccumulator F G × Transcript F G) :=
  let final_error_poly_len := pk.max_folding_constraints_degree + 1
  if final_error_poly_len < 2 then none
  else
    match readScalars tr (final_error_poly_len - 2) with
    | none => none
    | some (e_commitments, tr1) =>
      let sq := squeezeChallenge tr1
      some (VerifierAccumulator.foldWith acc0 acc1 e_commitments sq.1, sq.2)

/-- The error kinds of `plonk::Error` that `new_from_prover` can surface. -/
inductive PlonkError where
  | invalidInstances
  | transcriptError
  deriving DecidableEq

/-- Mirrors the inner advice loop of `new_from_prover` for one `current_phase`:
walk `zip(advice_column_phase, advice_commitments.iter_mut())` and replace the
commitment of every column whose phase matches by a point read from the
transcript; commitments beyond the zipped prefix are kept. -/
def readPhasePoints (current_phase : Nat) :
    List Nat → List G → Transcript F G → Option (List G × Transcript F G)
  | _, [], tr => some ([], tr)
  | [], coms, tr => some (coms, tr)
  | phase :: phases, c :: cs, tr =>
    if phase = current_phase then
      match readPoint tr with
      | none => none
      | some (p, tr1) =>
        match readPhasePoints current_phase phases cs tr1 with
        | none => none
        | some (cs1, tr2) => some (p :: cs1, tr2)
    else
      match readPhasePoints current_phase phases cs tr with
      | none => none
      | some (cs1, tr1) => some (c :: cs1, tr1)

/-- Mirrors the inner challenge loop of `new_from_prover` for one
`current_phase`: squeeze a challenge for every challenge whose phase matches. -/
def squeezePhaseChallenges (current_phase : Nat) :
    List Nat → List F → Transcript F G → List F × Transcript F G
  | _, [], tr => ([], tr)
  | [], chs, tr => (chs, tr)
  | phase :: phases, c :: cs, tr =>
    if phase = current_phase then
      let sq := squeezeChallenge tr
      let rest := squeezePhaseChallenges current_phase phases cs sq.2
      (sq.1 :: rest.1, rest.2)
    else
      let rest := squeezePhaseChallenges current_phase phases cs tr
      (c :: rest.1, rest.2)

/-- Mirrors the `for current_phase in pk.cs.phases()` loop of
`new_from_prover`. -/
def phasesLoop (advice_column_phase challenge_phase : List Nat) :
    List Nat → List G → List F → Transcript F G →
    Option (List G × List F × Transcript F G)
  | [], coms, chs, tr => some (coms, chs, tr)
  | current_phase :: rest, coms, chs, tr =>
    match readPhasePoints current_phase advice_column_phase coms tr with
    | none => none
    | some (coms1, tr1) =>
      let s := squeezePhaseChallenges current_phase challenge_phase chs tr1
      phasesLoop advice_column_phase challenge_phase rest coms1 s.1 s.2

/-- Mirrors the per-lookup loop of `new_from_prover`: for the i-th lookup
argument (with `n` input expressions) take `m_commitments[i]`, the shared
`r` and the `theta` powers, and read the `g` and `h` commitments. The list of
`m` commitments has the same length as the lookup list; an exhausted `m` list
models the out-of-range index panic. -/
def readLookups (r theta : F) :
    List G → List Nat → Transcript F G →
    Option (List (LookupAccumulator F G) × Transcript F G)
  | _, [], tr => some ([], tr)
  | [], _ :: _, _ => none
  | m :: ms, n :: rest, tr =>
    match readPoint tr with
    | none => none
    | some (g_commitment, tr1) =>
      match readPoint tr1 with
      | none => none
      | some (h_commitment, tr2) =>
        match readLookups r theta ms rest tr2 with
        | none => none
        | some (ls, tr3) =>
          some ({ m := m, r := r, thetas := powersTake theta n,
                  g := g_commitment, h := h_commitment } :: ls, tr3)

/-- Mirrors `VerifierAccumulator::new_from_prover`: check the instance column
count, absorb the instance values (absorption does not change the modelled
streams), keep the instances verbatim, read the advice commitments and
squeeze the challenges phase by phase, read the lookup `m` commitments,
squeeze `r` and `theta`, read the per-lookup `g` and `h` commitments, squeeze
`beta`, read the `beta` commitment, set `beta_error` to the identity, squeeze
`y` and expand it to `ys`, and start with zero `error`. -/
def VerifierAccumulator.new_from_prover (tr : Transcript F G)
    (instances : List (List F)) (pk : PkShape) :
    Except PlonkError (VerifierAccumulator F G × Transcript F G) :=
  if instances.length ≠ pk.num_instance_columns then .error .invalidInstances
  else
    match phasesLoop pk.advice_column_phase pk.challenge_phase pk.phases
        (List.replicate pk.num_advice_columns (0 : G))
        (List.replicate pk.num_challenges (0 : F)) tr with
    | none => .error .transcriptError
    | some (advice, challenges, tr1) =>
      match readPoints tr1 pk.lookups.length with
      | none => .error .transcriptError
      | some (m_commitments, tr2) =>
        let sqr := squeezeChallenge tr2
        let sqt := squeezeChallenge sqr.2
        match readLookups sqr.1 sqt.1 m_commitments pk.lookups sqt.2 with
        | none => .error .transcriptError
        | some (lookup_accumulators, tr3) =>
          let sqb := squeezeChallenge tr3
          match readPoint sqb.2 with
          | none => .error .transcriptError
          | some (beta_commitment, tr4) =>
            let sqy := squeezeChallenge tr4
            .ok ({ instance_ := instances
                   advice := advice
                   challenges := challenges
                   lookup_accumulators := lookup_accumulators
                   beta := sqb.1
                   beta_commitment := beta_commitment
                   beta_error := (0 : G)
                   ys := powersTake sqy.1 pk.num_folding_constraints
                   error := (0 : F) }, sqy.2)

/-- Wrap of a mathematical integer to the range of an `i32`, modelling the
`as i32` cast and i32 addition of the Rust source (release semantics). -/
def wrap32 (z : Int) : Int :=
  (z + 2 ^ 31) % 2 ^ 32 - 2 ^ 31

/-- Cast of an `i32` value to `usize` (64-bit), sign-extending then
reinterpreting, as Rust's `as usize` does. -/
def usizeOfI32 (z : Int) : Nat :=
  (z % 2 ^ 64).toNat

/-- Mirrors `get_rotation_idx` of error_check/gate.rs:
`(((idx as i32) + rot.0).rem_euclid(isize)) as usize`. -/
def getRotationIdx (idx : Nat) (rot : Int) (isize : Int) : Nat :=
  ((wrap32 ((wrap32 idx) + rot)) % isize).toNat

/-- Reading entry `i` of column `c` from a column list, with a default where
the Rust source would panic on an out-of-range index; every claim using this
helper keeps the indices in range. -/
def colAt (columns : List (List F)) (c i : Nat) : F :=
  (columns.getD c []).getD i 0

/-- Reading a boolean selector table entry, default `false` out of range. -/
def boolAt (columns : List (List Bool)) (c i : Nat) : Bool :=
  (columns.getD c []).getD i false

/-- Mirrors `Row::fill_row_with_rotations` of error_check/row.rs: the rotated
index is `(row_idx as i32 + rotation.0) as usize` with NO modular reduction
(the `rem_euclid` variant is commented out in the source), and the column
reads panic when the index is out of range (`none`). Queries are
`(column_index, rotation)` pairs. -/
def fillRowWithRotations (row_idx : Nat) (queries : List (Nat × Int))
    (columns : List (List F)) : Option (List F) :=
  queries.mapM (fun q =>
    let ridx := usizeOfI32 (wrap32 ((wrap32 row_idx) + q.2))
    match columns.get? q.1 with
    | none => none
    | some col => col.get? ridx)

/-- Mirrors `protostar::error_check::gate::Expr`: the query-indexed expression
tree whose leaves point into the gate's query tables. -/
inductive Expr (F : Type) where
  | Constant : F → Expr F
  | Selector : Nat → Expr F
  | Fixed : Nat → Expr F
  | Advice : Nat → Expr F
  | Instance : Nat → Expr F
  | Challenge : Nat → Expr F
  | Negated : Expr F → Expr F
  | Sum : Expr F → Expr F → Expr F
  | Product : Expr F → Expr F → Expr F
  | Scaled : Expr F → F → Expr F
  deriving DecidableEq

/-- Mirrors `Expr::evaluate`: the generic postorder fold over the tree with
one callable per variant. -/
def Expr.evaluate {F T : Type} (constant : F → T)
    (selector_column fixed_column advice_column instance_column challenge : Nat → T)
    (negated : T → T) (sum product : T → T → T) (scaled : T → F → T) :
    Expr F → T
  | .Constant scalar => constant scalar
  | .Selector selector => selector_column selector
  | .Fixed query => fixed_column query
  | .Advice query => advice_column query
  | .Instance query => instance_column query
  | .Challenge value => challenge value
  | .Negated a =>
    negated (a.evaluate constant selector_column fixed_column advice_column
      instance_column challenge negated sum product scaled)
  | .Sum a b =>
    sum (a.evaluate constant selector_column fixed_column advice_column
      instance_column challenge negated sum product scaled)
      (b.evaluate constant selector_column fixed_column advice_column
        instance_column challenge negated sum product scaled)
  | .Product a b =>
    product (a.evaluate constant selector_column fixed_column advice_column
      instance_column challenge negated sum product scaled)
      (b.evaluate constant selector_column fixed_column advice_column
        instance_column challenge negated sum product scaled)
  | .Scaled a f =>
    scaled (a.evaluate constant selector_column fixed_column advice_column
      instance_column challenge negated sum product scaled) f

/-- Mirrors `protostar::error_check::gate::Gate`: selectors are column
indices, fixed/instance/advice queries are `(column_index, rotation)` pairs,
challenge queries are `(index, power)` pairs. -/
structure Gate (F : Type) where
  polys : List (Expr F)
  simple_selector : Option Nat
  degrees : List Nat
  queried_selectors : List Nat
  queried_fixed : List (Nat × Int)
  queried_challenges : List (Nat × Nat)
  queried_instance : List (Nat × Int)
  queried_advice : List (Nat × Int)
  deriving DecidableEq

/-- Every leaf index of the expression is in range of the corresponding query
table of the gate (the compiler invariant). -/
def Expr.inRange {F : Type} (g : Gate F) : Expr F → Bool
  | .Constant _ => true
  | .Selector i => i < g.queried_selectors.length
  | .Fixed i => i < g.queried_fixed.length
  | .Advice i => i < g.queried_advice.length
  | .Instance i => i < g.queried_instance.length
  | .Challenge i => i < g.queried_challenges.length
  | .Negated a => a.inRange g
  | .Sum a b => a.inRange g && b.inRange g
  | .Product a b => a.inRange g && b.inRange g
  | .Scaled a _ => a.inRange g

/-- One step of the incremental challenge table: add the difference row to the
previous row (`zip` truncates to the common length). -/
def rowsNext (challenges_diff prev_evals : List F) : List F :=
  List.zipWith (fun prev diff => prev + diff) prev_evals challenges_diff

/-- The rows pushed by the `for eval in 1..num_evals` loop of
`evaluatuated_challenges`, starting from row `r`. -/
def rowsIter (challenges_diff r : List F) : Nat → List (List F)
  | 0 => []
  | Nat.succ k =>
    let r2 := rowsNext challenges_diff r
    r2 :: rowsIter challenges_diff r2 k

/-- Mirrors `evaluatuated_challenges` of error_check/gate.rs (source spelling
kept): row 0 is `challenges_acc`, every later row adds
`challenges_new - challenges_acc`; note the first row is pushed even when
`num_evals = 0`. -/
def evaluatuatedChallenges (challenges_acc challenges_new : List F)
    (num_evals : Nat) : List (List F) :=
  let challenges_diff :=
    List.zipWith (fun c_acc c_new => c_new - c_acc) challenges_acc challenges_new
  challenges_acc :: rowsIter challenges_diff challenges_acc (num_evals - 1)

/-- Mirrors `protostar::error_check::gate::GateEvaluationCache`; the
`ErrorEvaluations` wrapper around a plain vector of samples is flattened to
`List F`. -/
structure GateEvaluationCache (F : Type) where
  gate : Gate F
  num_evals : List Nat
  max_num_evals : Nat
  challenge_evals : List (List F)
  simple_selector : Option Bool
  selectors : List F
  fixed : List F
  instance_acc : List F
  instance_diff : List F
  advice_acc : List F
  advice_diff : List F
  gate_eval : List (List F)
  deriving DecidableEq

/-- Mirrors `GateEvaluationCache::new`: `num_evals[j] = degrees[j] + 1 +
num_extra_evaluations`, `max_num_evals` from the maximum degree (the source
`unwrap`s the maximum, panicking on an empty gate; here an empty list gives
0), the queried challenge values `challenges[idx][power-1]` from both
accumulators, the incremental challenge table, and zero-initialized buffers
with `gate_eval[j]` of length `num_evals[j]`. -/
def GateEvaluationCache.new (gate : Gate F)
    (acc_challenges new_challenges : List (List F))
    (num_extra_evaluations : Nat) : GateEvaluationCache F :=
  let num_evals := gate.degrees.map (fun d => d + 1 + num_extra_evaluations)
  let max_poly_degree := gate.degrees.foldl Nat.max 0
  let max_num_evals := max_poly_degree + 1 + num_extra_evaluations
  let acc_queried_challenges :=
    gate.queried_challenges.map (fun c => colAt acc_challenges c.1 (c.2 - 1))
  let new_queried_challenges :=
    gate.queried_challenges.map (fun c => colAt new_challenges c.1 (c.2 - 1))
  let challenge_evals :=
    evaluatuatedChallenges acc_queried_challenges new_queried_challenges max_num_evals
  { gate := gate
    num_evals := num_evals
    max_num_evals := max_num_evals
    challenge_evals := challenge_evals
    simple_selector := none
    selectors := List.replicate gate.queried_selectors.length 0
    fixed := List.replicate gate.queried_fixed.length 0
    instance_acc := List.replicate gate.queried_instance.length 0
    instance_diff := List.replicate gate.queried_instance.length 0
    advice_acc := List.replicate gate.queried_advice.length 0
    advice_diff := List.replicate gate.queried_advice.length 0
    gate_eval := num_evals.map (fun d => List.replicate d 0) }

/-- The buffer-filling part of `GateEvaluationCache::populate`: selectors as
0/1 field elements, fixed/instance/advice at the rotated row index, and the
`new - acc` differences. -/
def GateEvaluationCache.fillRow (c : GateEvaluationCache F) (row : Nat)
    (isize : Int) (pk_selectors : List (List Bool)) (pk_fixed : List (List F))
    (acc_instance acc_advice new_instance new_advice : List (List F)) :
    GateEvaluationCache F :=
  { c with
    selectors := c.gate.queried_selectors.map
      (fun s => if boolAt pk_selectors s row then (1 : F) else 0)
    fixed := c.gate.queried_fixed.map
      (fun q => colAt pk_fixed q.1 (getRotationIdx row q.2 isize))
    instance_acc := c.gate.queried_instance.map
      (fun q => colAt acc_instance q.1 (getRotationIdx row q.2 isize))
    instance_diff := c.gate.queried_instance.map
      (fun q => colAt new_instance q.1 (getRotationIdx row q.2 isize)
        - colAt acc_instance q.1 (getRotationIdx row q.2 isize))
    advice_acc := c.gate.queried_advice.map
      (fun q => colAt acc_advice q.1 (getRotationIdx row q.2 isize))
    advice_diff := c.gate.queried_advice.map
      (fun q => colAt new_advice q.1 (getRotationIdx row q.2 isize)
        - colAt acc_advice q.1 (getRotationIdx row q.2 isize)) }

/-- Mirrors `GateEvaluationCache::populate`: when the gate has a simple
selector, record its value and return immediately (touching nothing else)
when it is off; otherwise fill all buffers. -/
def GateEvaluationCache.populate (c : GateEvaluationCache F) (row : Nat)
    (isize : Int) (pk_selectors : List (List Bool)) (pk_fixed : List (List F))
    (acc_instance acc_advice new_instance new_advice : List (List F)) :
    GateEvaluationCache F :=
  match c.gate.simple_selector with
  | some selector_column =>
    let value := boolAt pk_selectors selector_column row
    let c1 := { c with simple_selector := some value }
    if value then
      c1.fillRow row isize pk_selectors pk_fixed acc_instance acc_advice
        new_instance new_advice
    else c1
  | none =>
    c.fillRow row isize pk_selectors pk_fixed acc_instance acc_advice
      new_instance new_advice

/-- Evaluation of one `Expr` against the cache buffers and one precomputed
challenge row, as the closure bundle passed to `poly.evaluate` in
`GateEvaluationCache::evaluate` does. -/
def evalExprBuf (selectors fixed instance_tmp advice_tmp challenge_row : List F)
    (e : Expr F) : F :=
  e.evaluate (fun constant => constant)
    (fun selector_idx => selectors.getD selector_idx 0)
    (fun fixed_idx => fixed.getD fixed_idx 0)
    (fun advice_idx => advice_tmp.getD advice_idx 0)
    (fun instance_idx => instance_tmp.getD instance_idx 0)
    (fun challenge_idx => challenge_row.getD challenge_idx 0)
    (fun negated => -negated)
    (fun sum_a sum_b => sum_a + sum_b)
    (fun prod_a prod_b => prod_a * prod_b)
    (fun scaled v => scaled * v)

/-- The inner constraint loop of `GateEvaluationCache::evaluate` for one
sample index `eval_idx`: walk `zip(polys, num_evals)` with its enumeration
index, skip a constraint when `eval_idx > num_evals[j]`, otherwise write the
evaluation into `gate_eval[poly_idx][eval_idx]`; an out-of-range write is the
Rust panic (`none`). -/
def writeGo (selectors fixed instance_tmp advice_tmp challenge_row : List F)
    (eval_idx : Nat) :
    List (Expr F × Nat) → Nat → List (List F) → Option (List (List F))
  | [], _, ge => some ge
  | (poly, num_evals) :: rest, poly_idx, ge =>
    if eval_idx > num_evals then
      writeGo selectors fixed instance_tmp advice_tmp challenge_row eval_idx
        rest (poly_idx + 1) ge
    else
      match ge.get? poly_idx with
      | none => none
      | some row =>
        if eval_idx < row.length then
          writeGo selectors fixed instance_tmp advice_tmp challenge_row eval_idx
            rest (poly_idx + 1)
            (ge.set poly_idx (row.set eval_idx
              (evalExprBuf selectors fixed instance_tmp advice_tmp challenge_row poly)))
        else none

/-- The in-place `+=` of the difference buffers performed at the start of
every loop iteration after the first. -/
def bumpBuffers (c : GateEvaluationCache F) : GateEvaluationCache F :=
  { c with
    instance_acc := zipWithKeep (fun i_tmp i_diff => i_tmp + i_diff)
      c.instance_acc c.instance_diff
    advice_acc := zipWithKeep (fun a_tmp a_diff => a_tmp + a_diff)
      c.advice_acc c.advice_diff }

/-- One iteration of the `for eval_idx in 0..max_num_evals` loop of
`GateEvaluationCache::evaluate`: after the first iteration add the
differences into the running instance/advice buffers, then evaluate every
constraint that still needs a sample. -/
def loopBody (c : GateEvaluationCache F) (eval_idx : Nat) :
    Option (GateEvaluationCache F) :=
  let c := if eval_idx > 0 then bumpBuffers c else c
  match writeGo c.selectors c.fixed c.instance_acc c.advice_acc
      (c.challenge_evals.getD eval_idx []) eval_idx
      (c.gate.polys.zip c.num_evals) 0 c.gate_eval with
  | none => none
  | some ge => some { c with gate_eval := ge }

/-- Sequencing of the sample loop over a list of sample indices. -/
def runLoop (c : GateEvaluationCache F) : List Nat → Option (GateEvaluationCache F)
  | [] => some c
  | x :: rest =>
    match loopBody c x with
    | none => none
    | some c1 => runLoop c1 rest

/-- The three ways `GateEvaluationCache::evaluate` can end: a panic (an
out-of-range `gate_eval` write), the `None` fast path when the simple
selector is off, or `Some` with the updated cache. -/
inductive EvalOutcome (F : Type) where
  | panic : EvalOutcome F
  | skipped : GateEvaluationCache F → EvalOutcome F
  | ok : GateEvaluationCache F → EvalOutcome F
  deriving DecidableEq

/-- Mirrors `GateEvaluationCache::evaluate`: populate the buffers, exit early
when the simple selector is off, then run the sample loop for
`eval_idx = 0, ..., max_num_evals - 1`. -/
def GateEvaluationCache.evaluate (c : GateEvaluationCache F) (row : Nat)
    (isize : Int) (pk_selectors : List (List Bool)) (pk_fixed : List (List F))
    (acc_instance acc_advice new_instance new_advice : List (List F)) :
    EvalOutcome F :=
  let c1 := c.populate row isize pk_selectors pk_fixed acc_instance acc_advice
    new_instance new_advice
  match c1.simple_selector with
  | some false => .skipped c1
  | _ =>
    match runLoop c1 (List.range c1.max_num_evals) with
    | none => .panic
    | some c2 => .ok c2

/-- Reference semantics for one constraint of a gate evaluated against a
single assignment (columns, challenge powers) at one row: leaves are resolved
through the gate's query tables directly. This is the meaning of "the
constraint evaluated on the row data of an accumulator". -/
def gateEvalAt (gate : Gate F) (row : Nat) (isize : Int)
    (pk_selectors : List (List Bool)) (pk_fixed : List (List F))
    (instance_polys advice_polys : List (List F)) (challenges : List (List F))
    (poly : Expr F) : F :=
  poly.evaluate (fun constant => constant)
    (fun i => if boolAt pk_selectors (gate.queried_selectors.getD i 0) row then 1 else 0)
    (fun i => colAt pk_fixed (gate.queried_fixed.getD i (0, 0)).1
      (getRotationIdx row (gate.queried_fixed.getD i (0, 0)).2 isize))
    (fun i => colAt advice_polys (gate.queried_advice.getD i (0, 0)).1
      (getRotationIdx row (gate.queried_advice.getD i (0, 0)).2 isize))
    (fun i => colAt instance_polys (gate.queried_instance.getD i (0, 0)).1
      (getRotationIdx row (gate.queried_instance.getD i (0, 0)).2 isize))
    (fun i => colAt challenges (gate.queried_challenges.getD i (0, 1)).1
      ((gate.queried_challenges.getD i (0, 1)).2 - 1))
    (fun negated => -negated)
    (fun sum_a sum_b => sum_a + sum_b)
    (fun prod_a prod_b => prod_a * prod_b)
    (fun scaled v => scaled * v)

/-- The entry `gate_eval[j][X]`, when it exists. -/
def entryAt (ge : List (List F)) (j X : Nat) : Option F :=
  (ge.get? j).bind (fun row => row.get? X)

/-- The challenge row after `m` incremental additions of the difference row. -/
def iterRow (challenges_diff r : List F) : Nat → List F
  | 0 => r
  | Nat.succ m => rowsNext challenges_diff (iterRow challenges_diff r m)

/-- The instance/advice buffer after `m` in-place additions of the difference
buffer, as performed by the sample loop of `evaluate`. -/
def iterAcc (buf diff : List F) : Nat → List F
  | 0 => buf
  | Nat.succ m => zipWithKeep (fun a d => a + d) (iterAcc buf diff m) diff

end Protostar

namespace ProtostarDemo

open Protostar

instance fact_prime_five : Fact (Nat.Prime 5) := ⟨by norm_num⟩

/-- A trivial accumulator over `ZMod 5` used as a base for concrete tests. -/
def baseAcc : VerifierAccumulator (ZMod 5) (ZMod 5) :=
  { instance_ := []
    advice := []
    challenges := []
    lookup_accumulators := []
    beta := 0
    beta_commitment := 0
    beta_error := 0
    ys := []
    error := 0 }

/-- First input accumulator for the instance-fold bug: one instance value 0. -/
def c1acc0 : VerifierAccumulator (ZMod 5) (ZMod 5) :=
  { baseAcc with instance_ := [[0]] }

/-- Second input accumulator for the instance-fold bug: one instance value 1. -/
def c1acc1 : VerifierAccumulator (ZMod 5) (ZMod 5) :=
  { baseAcc with instance_ := [[1]] }

/-- First input accumulator for the beta-error counterexample. -/
def c3acc0 : VerifierAccumulator (ZMod 5) (ZMod 5) := baseAcc

/-- Second input accumulator for the beta-error counterexample: its
beta-error commitment is nonzero. -/
def c3acc1 : VerifierAccumulator (ZMod 5) (ZMod 5) :=
  { baseAcc with beta_error := 1 }

/-- A proving-key shape whose `max_folding_constraints_degree` is 3. -/
def pkDeg3 : PkShape :=
  { num_instance_columns := 0
    num_advice_columns := 0
    num_challenges := 0
    phases := []
    advice_column_phase := []
    challenge_phase := []
    lookups := []
    num_folding_constraints := 0
    max_folding_constraints_degree := 3 }

/-- A transcript with no scalars left to read. -/
def emptyScalarsTr : Transcript (ZMod 5) (ZMod 5) :=
  { points := [], scalars := [], challenges := [2] }

/-- A transcript holding exactly two scalar coefficients. -/
def twoScalarsTr : Transcript (ZMod 5) (ZMod 5) :=
  { points := [], scalars := [1, 2], challenges := [4] }

/-- A gate with two constraints of folding degrees 1 and 2 over one advice
query. -/
def c2gate : Gate (ZMod 5) :=
  { polys := [Expr.Advice 0, Expr.Product (Expr.Advice 0) (Expr.Advice 0)]
    simple_selector := none
    degrees := [1, 2]
    queried_selectors := []
    queried_fixed := []
    queried_challenges := []
    queried_instance := []
    queried_advice := [(0, 0)] }

/-- Gate used for the selector fast-path witness: one constraint guarded by
the simple selector of column 0. -/
def c9gate : Gate (ZMod 5) :=
  { polys := [Expr.Advice 0]
    simple_selector := some 0
    degrees := [1]
    queried_selectors := []
    queried_fixed := []
    queried_challenges := []
    queried_instance := []
    queried_advice := [(0, 0)] }

/-- Cache for the selector fast-path witness. -/
def c9cache : GateEvaluationCache (ZMod 5) :=
  GateEvaluationCache.new c9gate [] [] 0

/-- Proving-key shape for the fresh-accumulator witness: one instance column,
one advice column, one challenge, a single phase, one lookup with one input
expression, two folding constraints. -/
def c10pk : PkShape :=
  { num_instance_columns := 1
    num_advice_columns := 1
    num_challenges := 1
    phases := [0]
    advice_column_phase := [0]
    challenge_phase := [0]
    lookups := [1]
    num_folding_constraints := 2
    max_folding_constraints_degree := 1 }

/-- Transcript for the fresh-accumulator witness: five points (advice, `m`,
`g`, `h`, beta commitment) and five squeezed challenges (phase challenge,
`r`, `theta`, `beta`, `y`). -/
def c10tr : Transcript (ZMod 5) (ZMod 5) :=
  { points := [1, 2, 3, 4, 2], scalars := [], challenges := [1, 2, 3, 4, 2] }

/-- The accumulator `new_from_prover` produces from `c10pk` and `c10tr`. -/
def c10acc : VerifierAccumulator (ZMod 5) (ZMod 5) :=
  { instance_ := [[2]]
    advice := [1]
    challenges := [1]
    lookup_accumulators := [{ m := 2, r := 2, thetas := [1], g := 3, h := 4 }]
    beta := 4
    beta_commitment := 2
    beta_error := 0
    ys := [1, 2]
    error := 0 }

/-- The transcript state left after the fresh-accumulator witness run. -/
def c10trOut : Transcript (ZMod 5) (ZMod 5) :=
  { points := [], scalars := [], challenges := [] }

/-- Gate used for the rotation witness: one fixed query at rotation `+1`. -/
def c4gate : Gate (ZMod 5) :=
  { polys := []
    simple_selector := none
    degrees := []
    queried_selectors := []
    queried_fixed := [(0, 1)]
    queried_challenges := []
    queried_instance := []
    queried_advice := [] }

/-- Cache built over `c4gate` for the rotation witness. -/
def c4cache : GateEvaluationCache (ZMod 5) :=
  GateEvaluationCache.new c4gate [] [] 0

/-- Gate for the endpoint witness: a single degree-2 constraint
`advice0 * advice0`. -/
def c7gate : Gate (ZMod 5) :=
  { polys := [Expr.Product (Expr.Advice 0) (Expr.Advice 0)]
    simple_selector := none
    degrees := [2]
    queried_selectors := []
    queried_fixed := []
    queried_challenges := []
    queried_instance := []
    queried_advice := [(0, 0)] }

/-- The cache state after a successful evaluation of `c7gate` at row 0 with
accumulator advice value 1 and new advice value 2 over `ZMod 5`. -/
def c7cacheOut : GateEvaluationCache (ZMod 5) :=
  { gate := c7gate
    num_evals := [3]
    max_num_evals := 3
    challenge_evals := [[], [], []]
    simple_selector := none
    selectors := []
    fixed := []
    instance_acc := []
    instance_diff := []
    advice_acc := [3]
    advice_diff := [1]
    gate_eval := [[1, 4, 4]] }

end ProtostarDemo

namespace Protostar

/-- Reading `n` scalars from a transcript holding at least `n` succeeds,
consumes exactly the first `n` scalars, in order, and leaves the rest. -/
theorem readScalars_of_le {F G : Type} (n : Nat) (tr : Transcript F G)
    (h : n ≤ tr.scalars.length) :
    readScalars tr n
      = some (tr.scalars.take n, { tr with scalars := tr.scalars.drop n }) := by
  induction n generalizing tr with
  | zero => simp [readScalars]
  | succ n ih =>
    match htr : tr.scalars with
    | [] =>
      rw [htr] at h
      exact absurd h (by simp)
    | s :: rest =>
      have hrest : n ≤ rest.length := by
        rw [htr] at h
        simpa using h
      have := ih { tr with scalars := rest } (by simpa using hrest)
      unfold readScalars readScalar
      rw [htr]
      simp only [this, htr]
      rfl

/-- Element access of a `zipWith`, for an index below both lengths. -/
theorem zipWith_getD {α β γ : Type} (f : α → β → γ) (a : List α) (b : List β)
    (i : Nat) (ha : i < a.length) (hb : i < b.length) (da : α) (db : β) (dc : γ) :
    (List.zipWith f a b).getD i dc = f (a.getD i da) (b.getD i db) := by
  induction a generalizing b i with
  | nil => exact absurd ha (by simp)
  | cons x xs ih =>
    cases b with
    | nil => exact absurd hb (by simp)
    | cons y ys =>
      cases i with
      | zero => rfl
      | succ i =>
        simp only [List.zipWith, List.getD_cons_succ]
        exact ih ys i (by simpa using ha) (by simpa using hb)

/-- `iterRow` keeps the row length when the difference row has the same
length as the starting row. -/
theorem iterRow_length {F : Type} [Field F] (challenges_diff r : List F)
    (h : challenges_diff.length = r.length) (m : Nat) :
    (iterRow challenges_diff r m).length = r.length := by
  induction m with
  | zero => rfl
  | succ m ih =>
    simp [iterRow, rowsNext, ih, h]

/-- Shifting the starting row of `iterRow` by one incremental step. -/
theorem iterRow_shift {F : Type} [Field F] (challenges_diff r : List F) (m : Nat) :
    iterRow challenges_diff (rowsNext challenges_diff r) m
      = iterRow challenges_diff r (m + 1) := by
  induction m with
  | zero => rfl
  | succ m ih =>
    simp only [iterRow, ih]

/-- The i-th row pushed by the incremental loop is the (i+1)-fold step. -/
theorem rowsIter_get? {F : Type} [Field F] (challenges_diff r : List F)
    (k i : Nat) (hik : i < k) :
    (rowsIter challenges_diff r k).get? i
      = some (iterRow challenges_diff r (i + 1)) := by
  induction k generalizing r i with
  | zero => exact absurd hik (by omega)
  | succ k ih =>
    cases i with
    | zero =>
      simp [rowsIter, iterRow]
    | succ i =>
      simp only [rowsIter, List.get?_cons_succ]
      rw [ih _ i (by omega), iterRow_shift]

/-- Pointwise closed form of the incremental row updates. -/
theorem iterRow_getD {F : Type} [Field F] (challenges_diff r : List F)
    (h : challenges_diff.length = r.length) (m q : Nat) (hq : q < r.length) :
    (iterRow challenges_diff r m).getD q 0
      = r.getD q 0 + (m : F) * challenges_diff.getD q 0 := by
  induction m with
  | zero => simp [iterRow]
  | succ m ih =>
    have hlen := iterRow_length challenges_diff r h m
    have hz : (rowsNext challenges_diff (iterRow challenges_diff r m)).getD q 0
        = (iterRow challenges_diff r m).getD q 0 + challenges_diff.getD q 0 :=
      zipWith_getD _ _ _ q (by omega) (by omega) 0 0 0
    rw [iterRow, hz, ih]
    push_cast
    ring

/-- The i32 wrap is the identity on values already in i32 range. -/
theorem wrap32_eq_self (z : Int) (h1 : -(2 ^ 31) ≤ z) (h2 : z < 2 ^ 31) :
    wrap32 z = z := by
  have e31 : (2 : Int) ^ 31 = 2147483648 := by norm_num
  have e32 : (2 : Int) ^ 32 = 4294967296 := by norm_num
  unfold wrap32
  rw [Int.emod_eq_of_lt (by omega) (by omega)]
  omega

/-- The usize cast is the identity on small nonnegative values. -/
theorem usizeOfI32_of_nonneg (z : Int) (h1 : 0 ≤ z) (h2 : z < 2 ^ 31) :
    usizeOfI32 z = z.toNat := by
  have e31 : (2 : Int) ^ 31 = 2147483648 := by norm_num
  have e64 : (2 : Int) ^ 64 = 18446744073709551616 := by norm_num
  unfold usizeOfI32
  rw [Int.emod_eq_of_lt h1 (by omega)]

/-- For an in-range row and a rotation bounded by the domain size,
`get_rotation_idx` computes the Euclidean remainder `(row + rot) mod dsize`. -/
theorem getRotationIdx_mod (row dsize : Nat) (rot : Int)
    (h1 : row < dsize) (h2 : dsize ≤ 2 ^ 30) (h3 : rot.natAbs ≤ dsize) :
    getRotationIdx row rot (dsize : Int)
      = (((row : Int) + rot) % (dsize : Int)).toNat := by
  have e30 : (2 : Nat) ^ 30 = 1073741824 := by norm_num
  have e31 : (2 : Int) ^ 31 = 2147483648 := by norm_num
  unfold getRotationIdx
  rw [wrap32_eq_self (row : Int) (by omega) (by omega),
    wrap32_eq_self ((row : Int) + rot) (by omega) (by omega)]

/-- The row.rs path: when the unreduced index `row + rot` of every query is
nonnegative and within its column, `fill_row_with_rotations` returns exactly
the values at those unreduced indices. -/
theorem fillRowWithRotations_in_range {F : Type} [Field F] (row dsize : Nat)
    (h1 : row < dsize) (h2 : dsize ≤ 2 ^ 30)
    (queries : List (Nat × Int)) (columns : List (List F))
    (hq : ∀ q ∈ queries, q.2.natAbs ≤ dsize ∧ 0 ≤ (row : Int) + q.2
      ∧ q.1 < columns.length
      ∧ ((row : Int) + q.2).toNat < (columns.getD q.1 []).length) :
    fillRowWithRotations row queries columns
      = some (queries.map
          (fun q => (columns.getD q.1 []).getD ((row : Int) + q.2).toNat 0)) := by
  have e30 : (2 : Nat) ^ 30 = 1073741824 := by norm_num
  have e31 : (2 : Int) ^ 31 = 2147483648 := by norm_num
  induction queries with
  | nil => rfl
  | cons qh qt ih =>
    obtain ⟨hqa, hqb, hqc, hqd⟩ := hq qh (by simp)
    have iht := ih (fun q hmem => hq q (by simp [hmem]))
    unfold fillRowWithRotations at iht ⊢
    rw [wrap32_eq_self (row : Int) (by omega) (by omega)] at iht ⊢
    simp only [List.mapM_cons, List.map_cons]
    rw [List.get?_eq_get hqc]
    dsimp only
    rw [wrap32_eq_self ((row : Int) + qh.2) (by omega) (by omega),
      usizeOfI32_of_nonneg _ hqb (by omega)]
    have hcol : columns.get ⟨qh.1, hqc⟩ = columns.getD qh.1 [] :=
      (List.getD_eq_getElem columns [] hqc).symm
    rw [hcol]
    rw [List.get?_eq_get hqd]
    have hval : (columns.getD qh.1 []).get ⟨((row : Int) + qh.2).toNat, hqd⟩
        = (columns.getD qh.1 []).getD ((row : Int) + qh.2).toNat 0 :=
      (List.getD_eq_getElem _ 0 hqd).symm
    rw [hval, iht]
    rfl

/-- `getD` through a `map`, for an index below the length. -/
theorem getD_map_lt {α β : Type} (f : α → β) (l : List α) (i : Nat)
    (hi : i < l.length) (d : α) (d2 : β) :
    (l.map f).getD i d2 = f (l.getD i d) := by
  rw [List.getD_eq_getElem _ _ (by simpa using hi), List.getD_eq_getElem _ _ hi,
    List.getElem_map]

/-- Element of a `zip` from elements of both lists. -/
theorem zip_get?_of {α β : Type} (a : List α) (b : List β) (i : Nat)
    (x : α) (y : β) (ha : a.get? i = some x) (hb : b.get? i = some y) :
    (a.zip b).get? i = some (x, y) := by
  induction a generalizing b i with
  | nil => simp at ha
  | cons ah at' ih =>
    cases b with
    | nil => simp at hb
    | cons bh bt =>
      cases i with
      | zero =>
        simp only [List.get?_cons_zero, Option.some.injEq] at ha hb
        simp [List.zip_cons_cons, ha, hb]
      | succ i =>
        simp only [List.get?_cons_succ] at ha hb
        simpa [List.zip_cons_cons] using ih bt i ha hb

/-- `zipWithKeep` of two maps over the same list is a map. -/
theorem zipWithKeep_map_map {α β : Type} (f : β → β → β) (g h : α → β)
    (l : List α) :
    zipWithKeep f (l.map g) (l.map h) = l.map (fun x => f (g x) (h x)) := by
  induction l with
  | nil => rfl
  | cons x xs ih => simp [zipWithKeep, ih]

/-- `zipWith` of two maps over the same list is a map. -/
theorem zipWith_map_same {α β γ : Type} (f : β → β → γ) (g h : α → β)
    (l : List α) :
    List.zipWith f (l.map g) (l.map h) = l.map (fun x => f (g x) (h x)) := by
  induction l with
  | nil => rfl
  | cons x xs ih => simp [ih]

/-- The fold seed is below a `foldl Nat.max`. -/
theorem foldlMax_init_le (l : List Nat) (a : Nat) : a ≤ l.foldl Nat.max a := by
  induction l generalizing a with
  | nil => exact Nat.le_refl a
  | cons x xs ih => exact le_trans (Nat.le_max_left a x) (ih (Nat.max a x))

/-- Every member is below a `foldl Nat.max`. -/
theorem foldlMax_mem_le (l : List Nat) (x : Nat) (hx : x ∈ l) :
    ∀ (a : Nat), x ≤ l.foldl Nat.max a := by
  induction l with
  | nil => simp at hx
  | cons y ys ih =>
    intro a
    rcases List.mem_cons.mp hx with h | h
    · subst h
      exact le_trans (Nat.le_max_right a x) (foldlMax_init_le ys (Nat.max a x))
    · exact ih h (Nat.max a y)

/-- `writeGo` never touches rows below its starting index. -/
theorem writeGo_get?_lt {F : Type} [Field F] (sel fx ins adv cr : List F)
    (X : Nat) :
    ∀ (pairs : List (Expr F × Nat)) (j : Nat) (ge ge' : List (List F)),
    writeGo sel fx ins adv cr X pairs j ge = some ge' →
    ∀ i, i < j → ge'.get? i = ge.get? i := by
  intro pairs
  induction pairs with
  | nil =>
    intro j ge ge' h i hij
    unfold writeGo at h
    simp only [Option.some.injEq] at h
    rw [← h]
  | cons hd rest ih =>
    intro j ge ge' h i hij
    obtain ⟨p, ne⟩ := hd
    unfold writeGo at h
    by_cases hskip : X > ne
    · rw [if_pos hskip] at h
      exact ih (j + 1) ge ge' h i (by omega)
    · rw [if_neg hskip] at h
      cases hrow : ge.get? j with
      | none =>
        rw [hrow] at h
        simp at h
      | some row =>
        rw [hrow] at h
        dsimp only at h
        by_cases hlen : X < row.length
        · rw [if_pos hlen] at h
          rw [ih _ _ _ h i (by omega)]
          simp [List.get?_eq_getElem?, List.getElem?_set_ne (show j ≠ i by omega)]
        · rw [if_neg hlen] at h
          simp at h

/-- `writeGo` leaves every entry at a sample index other than its own
unchanged. -/
theorem writeGo_entry_ne {F : Type} [Field F] (sel fx ins adv cr : List F)
    (X : Nat) :
    ∀ (pairs : List (Expr F × Nat)) (j : Nat) (ge ge' : List (List F)),
    writeGo sel fx ins adv cr X pairs j ge = some ge' →
    ∀ i Y, Y ≠ X → entryAt ge' i Y = entryAt ge i Y := by
  intro pairs
  induction pairs with
  | nil =>
    intro j ge ge' h i Y hY
    unfold writeGo at h
    simp only [Option.some.injEq] at h
    rw [← h]
  | cons hd rest ih =>
    intro j ge ge' h i Y hY
    obtain ⟨p, ne⟩ := hd
    unfold writeGo at h
    by_cases hskip : X > ne
    · rw [if_pos hskip] at h
      exact ih (j + 1) ge ge' h i Y hY
    · rw [if_neg hskip] at h
      cases hrow : ge.get? j with
      | none =>
        rw [hrow] at h
        simp at h
      | some row =>
        rw [hrow] at h
        dsimp only at h
        by_cases hlen : X < row.length
        · rw [if_pos hlen] at h
          rw [ih _ _ _ h i Y hY]
          by_cases hij : i = j
          · subst hij
            have hjlen : i < ge.length := by
              by_contra hc
              rw [List.get?_eq_getElem?, List.getElem?_eq_none (by omega)] at hrow
              simp at hrow
            unfold entryAt
            rw [hrow]
            have : (ge.set i (row.set X
                (evalExprBuf sel fx ins adv cr p))).get? i
                = some (row.set X (evalExprBuf sel fx ins adv cr p)) := by
              simp [List.get?_eq_getElem?, List.getElem?_set_self, hjlen]
            rw [this]
            simp [List.get?_eq_getElem?, List.getElem?_set_ne (show X ≠ Y by omega)]
          · unfold entryAt
            have : (ge.set j (row.set X
                (evalExprBuf sel fx ins adv cr p))).get? i = ge.get? i := by
              simp [List.get?_eq_getElem?, List.getElem?_set_ne (show j ≠ i by omega)]
            rw [this]
        · rw [if_neg hlen] at h
          simp at h

/-- A non-skipped constraint gets its sample written by `writeGo`: the entry
at its row and the current sample index is the evaluation against the
supplied buffers. -/
theorem writeGo_entry_write {F : Type} [Field F] (sel fx ins adv cr : List F)
    (X : Nat) :
    ∀ (pairs : List (Expr F × Nat)) (j : Nat) (ge ge' : List (List F)),
    writeGo sel fx ins adv cr X pairs j ge = some ge' →
    ∀ off p ne, pairs.get? off = some (p, ne) → ¬ (X > ne) →
    entryAt ge' (j + off) X = some (evalExprBuf sel fx ins adv cr p) := by
  intro pairs
  induction pairs with
  | nil =>
    intro j ge ge' h off p ne hoff
    simp at hoff
  | cons hd rest ih =>
    intro j ge ge' h off p ne hoff hne
    obtain ⟨p0, ne0⟩ := hd
    unfold writeGo at h
    cases off with
    | zero =>
      simp only [List.get?_cons_zero, Option.some.injEq, Prod.mk.injEq] at hoff
      obtain ⟨hp0, hne0⟩ := hoff
      subst hp0
      subst hne0
      rw [if_neg hne] at h
      cases hrow : ge.get? j with
      | none =>
        rw [hrow] at h
        simp at h
      | some row =>
        rw [hrow] at h
        dsimp only at h
        by_cases hlen : X < row.length
        · rw [if_pos hlen] at h
          have hjlen : j < ge.length := by
            by_contra hc
            rw [List.get?_eq_getElem?, List.getElem?_eq_none (by omega)] at hrow
            simp at hrow
          have hfr := writeGo_get?_lt sel fx ins adv cr X rest (j + 1) _ ge' h
            j (by omega)
          unfold entryAt
          rw [Nat.add_zero, hfr]
          have : (ge.set j (row.set X
              (evalExprBuf sel fx ins adv cr p0))).get? j
              = some (row.set X (evalExprBuf sel fx ins adv cr p0)) := by
            simp [List.get?_eq_getElem?, List.getElem?_set_self, hjlen]
          rw [this]
          simp [List.get?_eq_getElem?, List.getElem?_set_self, hlen]
        · rw [if_neg hlen] at h
          simp at h
    | succ o =>
      simp only [List.get?_cons_succ] at hoff
      rw [show j + (o + 1) = (j + 1) + o by omega]
      by_cases hskip : X > ne0
      · rw [if_pos hskip] at h
        exact ih (j + 1) ge ge' h o p ne hoff hne
      · rw [if_neg hskip] at h
        cases hrow : ge.get? j with
        | none =>
          rw [hrow] at h
          simp at h
        | some row =>
          rw [hrow] at h
          dsimp only at h
          by_cases hlen : X < row.length
          · rw [if_pos hlen] at h
            exact ih (j + 1) _ ge' h o p ne hoff hne
          · rw [if_neg hlen] at h
            simp at h

/-- Splitting a loop run over an appended index list. -/
theorem runLoop_append {F : Type} [Field F] (xs ys : List Nat) :
    ∀ (c : GateEvaluationCache F),
    runLoop c (xs ++ ys) = match runLoop c xs with
      | none => none
      | some c1 => runLoop c1 ys := by
  induction xs with
  | nil => intro c; rfl
  | cons x xt ih =>
    intro c
    simp only [List.cons_append, runLoop]
    cases hlb : loopBody c x with
    | none => rfl
    | some c1 => exact ih c1

/-- Invariant of the sample loop run on `0, ..., n-1`: all fields other than
the running instance/advice buffers and `gate_eval` are unchanged, the
running buffers have absorbed the difference `n-1` times, and every entry
`gate_eval[j][X]` with `X < n` that the loop does not skip holds the
evaluation of the j-th constraint against the buffers after `X` additions and
the challenge row `X`. -/
theorem runLoop_range_spec {F : Type} [Field F] (c0 : GateEvaluationCache F) :
    ∀ (n : Nat) (c' : GateEvaluationCache F),
    runLoop c0 (List.range n) = some c' →
    (c'.gate = c0.gate ∧ c'.num_evals = c0.num_evals
      ∧ c'.max_num_evals = c0.max_num_evals
      ∧ c'.challenge_evals = c0.challenge_evals
      ∧ c'.simple_selector = c0.simple_selector
      ∧ c'.selectors = c0.selectors ∧ c'.fixed = c0.fixed
      ∧ c'.instance_diff = c0.instance_diff ∧ c'.advice_diff = c0.advice_diff)
    ∧ c'.instance_acc = iterAcc c0.instance_acc c0.instance_diff (n - 1)
    ∧ c'.advice_acc = iterAcc c0.advice_acc c0.advice_diff (n - 1)
    ∧ ∀ j p ne X, (c0.gate.polys.zip c0.num_evals).get? j = some (p, ne) →
        X < n → ¬ (X > ne) →
        entryAt c'.gate_eval j X
          = some (evalExprBuf c0.selectors c0.fixed
              (iterAcc c0.instance_acc c0.instance_diff X)
              (iterAcc c0.advice_acc c0.advice_diff X)
              (c0.challenge_evals.getD X []) p) := by
  intro n
  induction n with
  | zero =>
    intro c' h
    simp only [List.range_zero, runLoop, Option.some.injEq] at h
    subst h
    refine ⟨⟨rfl, rfl, rfl, rfl, rfl, rfl, rfl, rfl, rfl⟩, rfl, rfl, ?_⟩
    intro j p ne X _ hX
    omega
  | succ n ih =>
    intro c' h
    rw [List.range_succ, runLoop_append] at h
    cases hcn : runLoop c0 (List.range n) with
    | none =>
      rw [hcn] at h
      simp at h
    | some cn =>
      rw [hcn] at h
      obtain ⟨⟨hg, hnev, hmx, hch, hss, hsel, hfx, hid, had⟩, hia, haa, hent⟩ :=
        ih cn hcn
      simp only [runLoop] at h
      cases hlb : loopBody cn n with
      | none =>
        rw [hlb] at h
        simp at h
      | some c1 =>
        rw [hlb] at h
        simp only [Option.some.injEq] at h
        subst h
        unfold loopBody at hlb
        dsimp only at hlb
        have hcb_gate : (if n > 0 then bumpBuffers cn else cn).gate = cn.gate := by
          split <;> rfl
        have hcb_nev : (if n > 0 then bumpBuffers cn else cn).num_evals
            = cn.num_evals := by
          split <;> rfl
        have hcb_mx : (if n > 0 then bumpBuffers cn else cn).max_num_evals
            = cn.max_num_evals := by
          split <;> rfl
        have hcb_ch : (if n > 0 then bumpBuffers cn else cn).challenge_evals
            = cn.challenge_evals := by
          split <;> rfl
        have hcb_ss : (if n > 0 then bumpBuffers cn else cn).simple_selector
            = cn.simple_selector := by
          split <;> rfl
        have hcb_sel : (if n > 0 then bumpBuffers cn else cn).selectors
            = cn.selectors := by
          split <;> rfl
        have hcb_fx : (if n > 0 then bumpBuffers cn else cn).fixed = cn.fixed := by
          split <;> rfl
        have hcb_id : (if n > 0 then bumpBuffers cn else cn).instance_diff
            = cn.instance_diff := by
          split <;> rfl
        have hcb_ad : (if n > 0 then bumpBuffers cn else cn).advice_diff
            = cn.advice_diff := by
          split <;> rfl
        have hcb_ge : (if n > 0 then bumpBuffers cn else cn).gate_eval
            = cn.gate_eval := by
          split <;> rfl
        have hcb_ia : (if n > 0 then bumpBuffers cn else cn).instance_acc
            = iterAcc c0.instance_acc c0.instance_diff n := by
          rcases Nat.eq_zero_or_pos n with hn | hn
          · subst hn
            rw [if_neg (by omega)]
            exact hia
          · rw [if_pos hn]
            show zipWithKeep _ cn.instance_acc cn.instance_diff = _
            rw [hia, hid]
            obtain ⟨m, rfl⟩ : ∃ m, n = m + 1 := ⟨n - 1, by omega⟩
            rfl
        have hcb_aa : (if n > 0 then bumpBuffers cn else cn).advice_acc
            = iterAcc c0.advice_acc c0.advice_diff n := by
          rcases Nat.eq_zero_or_pos n with hn | hn
          · subst hn
            rw [if_neg (by omega)]
            exact haa
          · rw [if_pos hn]
            show zipWithKeep _ cn.advice_acc cn.advice_diff = _
            rw [haa, had]
            obtain ⟨m, rfl⟩ : ∃ m, n = m + 1 := ⟨n - 1, by omega⟩
            rfl
        cases hw : writeGo (if n > 0 then bumpBuffers cn else cn).selectors
            (if n > 0 then bumpBuffers cn else cn).fixed
            (if n > 0 then bumpBuffers cn else cn).instance_acc
            (if n > 0 then bumpBuffers cn else cn).advice_acc
            ((if n > 0 then bumpBuffers cn else cn).challenge_evals.getD n []) n
            ((if n > 0 then bumpBuffers cn else cn).gate.polys.zip
              (if n > 0 then bumpBuffers cn else cn).num_evals) 0
            ((if n > 0 then bumpBuffers cn else cn).gate_eval) with
        | none =>
          rw [hw] at hlb
          simp at hlb
        | some ge =>
          rw [hw] at hlb
          simp only [Option.some.injEq] at hlb
          subst hlb
          refine ⟨⟨?_, ?_, ?_, ?_, ?_, ?_, ?_, ?_, ?_⟩, ?_, ?_, ?_⟩
          · rw [show ({ (if n > 0 then bumpBuffers cn else cn) with
                gate_eval := ge } : GateEvaluationCache F).gate
                = (if n > 0 then bumpBuffers cn else cn).gate from rfl,
              hcb_gate, hg]
          · rw [show ({ (if n > 0 then bumpBuffers cn else cn) with
                gate_eval := ge } : GateEvaluationCache F).num_evals
                = (if n > 0 then bumpBuffers cn else cn).num_evals from rfl,
              hcb_nev, hnev]
          · rw [show ({ (if n > 0 then bumpBuffers cn else cn) with
                gate_eval := ge } : GateEvaluationCache F).max_num_evals
                = (if n > 0 then bumpBuffers cn else cn).max_num_evals from rfl,
              hcb_mx, hmx]
          · rw [show ({ (if n > 0 then bumpBuffers cn else cn) with
                gate_eval := ge } : GateEvaluationCache F).challenge_evals
                = (if n > 0 then bumpBuffers cn else cn).challenge_evals from rfl,
              hcb_ch, hch]
          · rw [show ({ (if n > 0 then bumpBuffers cn else cn) with
                gate_eval := ge } : GateEvaluationCache F).simple_selector
                = (if n > 0 then bumpBuffers cn else cn).simple_selector from rfl,
              hcb_ss, hss]
          · rw [show ({ (if n > 0 then bumpBuffers cn else cn) with
                gate_eval := ge } : GateEvaluationCache F).selectors
                = (if n > 0 then bumpBuffers cn else cn).selectors from rfl,
              hcb_sel, hsel]
          · rw [show ({ (if n > 0 then bumpBuffers cn else cn) with
                gate_eval := ge } : GateEvaluationCache F).fixed
                = (if n > 0 then bumpBuffers cn else cn).fixed from rfl,
              hcb_fx, hfx]
          · rw [show ({ (if n > 0 then bumpBuffers cn else cn) with
                gate_eval := ge } : GateEvaluationCache F).instance_diff
                = (if n > 0 then bumpBuffers cn else cn).instance_diff from rfl,
              hcb_id, hid]
          · rw [show ({ (if n > 0 then bumpBuffers cn else cn) with
                gate_eval := ge } : GateEvaluationCache F).advice_diff
                = (if n > 0 then bumpBuffers cn else cn).advice_diff from rfl,
              hcb_ad, had]
          · rw [show ({ (if n > 0 then bumpBuffers cn else cn) with
                gate_eval := ge } : GateEvaluationCache F).instance_acc
                = (if n > 0 then bumpBuffers cn else cn).instance_acc from rfl,
              hcb_ia, Nat.add_sub_cancel]
          · rw [show ({ (if n > 0 then bumpBuffers cn else cn) with
                gate_eval := ge } : GateEvaluationCache F).advice_acc
                = (if n > 0 then bumpBuffers cn else cn).advice_acc from rfl,
              hcb_aa, Nat.add_sub_cancel]
          · intro j p ne X hzip hX hne
            have hzipcb : ((if n > 0 then bumpBuffers cn else cn).gate.polys.zip
                (if n > 0 then bumpBuffers cn else cn).num_evals).get? j
                = some (p, ne) := by
              rw [hcb_gate, hcb_nev, hg, hnev]
              exact hzip
            by_cases hXn : X = n
            · subst hXn
              have hwr := writeGo_entry_write _ _ _ _ _ X _ 0 _ _ hw j p ne
                hzipcb hne
              rw [Nat.zero_add] at hwr
              rw [show ({ (if X > 0 then bumpBuffers cn else cn) with
                  gate_eval := ge } : GateEvaluationCache F).gate_eval = ge from rfl]
              rw [hwr, hcb_sel, hcb_fx, hcb_ia, hcb_aa, hcb_ch, hsel, hfx, hch]
            · have hXlt : X < n := by omega
              have hold := hent j p ne X hzip hXlt hne
              have hpres := writeGo_entry_ne _ _ _ _ _ n _ 0 _ _ hw j X (by omega)
              rw [show ({ (if n > 0 then bumpBuffers cn else cn) with
                  gate_eval := ge } : GateEvaluationCache F).gate_eval = ge from rfl]
              rw [hpres, hcb_ge, hold]

/-- Evaluating a constraint against buffers that are maps over the gate's
query tables is the same as the direct single-assignment evaluation
`gateEvalAt`, provided every leaf index is in range. -/
theorem evalExprBuf_maps {F : Type} [Field F] (gate : Gate F) (row : Nat)
    (isize : Int) (pk_selectors : List (List Bool))
    (pk_fixed instance_polys advice_polys : List (List F))
    (challenges : List (List F)) (p : Expr F) (hr : p.inRange gate = true) :
    evalExprBuf
      (gate.queried_selectors.map
        (fun s => if boolAt pk_selectors s row then (1 : F) else 0))
      (gate.queried_fixed.map
        (fun q => colAt pk_fixed q.1 (getRotationIdx row q.2 isize)))
      (gate.queried_instance.map
        (fun q => colAt instance_polys q.1 (getRotationIdx row q.2 isize)))
      (gate.queried_advice.map
        (fun q => colAt advice_polys q.1 (getRotationIdx row q.2 isize)))
      (gate.queried_challenges.map
        (fun c => colAt challenges c.1 (c.2 - 1)))
      p
      = gateEvalAt gate row isize pk_selectors pk_fixed instance_polys
          advice_polys challenges p := by
  revert hr
  induction p with
  | Constant v => intro hr; rfl
  | Selector i =>
    intro hr
    simp only [Expr.inRange, decide_eq_true_eq] at hr
    unfold evalExprBuf gateEvalAt Expr.evaluate
    exact getD_map_lt _ _ i hr 0 0
  | Fixed i =>
    intro hr
    simp only [Expr.inRange, decide_eq_true_eq] at hr
    unfold evalExprBuf gateEvalAt Expr.evaluate
    exact getD_map_lt _ _ i hr (0, 0) 0
  | Advice i =>
    intro hr
    simp only [Expr.inRange, decide_eq_true_eq] at hr
    unfold evalExprBuf gateEvalAt Expr.evaluate
    exact getD_map_lt _ _ i hr (0, 0) 0
  | Instance i =>
    intro hr
    simp only [Expr.inRange, decide_eq_true_eq] at hr
    unfold evalExprBuf gateEvalAt Expr.evaluate
    exact getD_map_lt _ _ i hr (0, 0) 0
  | Challenge i =>
    intro hr
    simp only [Expr.inRange, decide_eq_true_eq] at hr
    unfold evalExprBuf gateEvalAt Expr.evaluate
    exact getD_map_lt _ _ i hr (0, 1) 0
  | Negated a iha =>
    intro hr
    simp only [Expr.inRange] at hr
    show -(evalExprBuf _ _ _ _ _ a) = _
    rw [iha hr]
    rfl
  | Sum a b iha ihb =>
    intro hr
    simp only [Expr.inRange, Bool.and_eq_true] at hr
    show evalExprBuf _ _ _ _ _ a + evalExprBuf _ _ _ _ _ b = _
    rw [iha hr.1, ihb hr.2]
    rfl
  | Product a b iha ihb =>
    intro hr
    simp only [Expr.inRange, Bool.and_eq_true] at hr
    show evalExprBuf _ _ _ _ _ a * evalExprBuf _ _ _ _ _ b = _
    rw [iha hr.1, ihb hr.2]
    rfl
  | Scaled a v iha =>
    intro hr
    simp only [Expr.inRange] at hr
    show evalExprBuf _ _ _ _ _ a * v = _
    rw [iha hr]
    rfl

/-- `fillRow` does not touch the recorded simple-selector value. -/
theorem fillRow_simple_selector {F : Type} [Field F]
    (c : GateEvaluationCache F) (row : Nat) (isize : Int)
    (pk_selectors : List (List Bool))
    (pk_fixed acc_instance acc_advice new_instance new_advice : List (List F)) :
    (c.fillRow row isize pk_selectors pk_fixed acc_instance acc_advice
      new_instance new_advice).simple_selector = c.simple_selector := rfl

/-- Endpoint values of the sample loop: for a cache whose buffers were filled
from the two accumulators (the shape `fillRow` produces), a successful loop
run leaves `gate_eval[j][0]` equal to the j-th constraint evaluated against
the first accumulator's data and `gate_eval[j][1]` equal to the evaluation
against the second accumulator's data. -/
theorem evaluate_endpoints_aux {F : Type} [Field F]
    (gate : Gate F) (aCh nCh : List (List F)) (k : Nat) (row : Nat)
    (isize : Int) (pkSel : List (List Bool))
    (pkFixed aInst aAdv nInst nAdv : List (List F))
    (c0 c' : GateEvaluationCache F)
    (hgate : c0.gate = gate)
    (hnev : c0.num_evals = gate.degrees.map (fun d => d + 1 + k))
    (hmax2 : 2 ≤ c0.max_num_evals)
    (hsel : c0.selectors = gate.queried_selectors.map
      (fun s => if boolAt pkSel s row then (1 : F) else 0))
    (hfx : c0.fixed = gate.queried_fixed.map
      (fun q => colAt pkFixed q.1 (getRotationIdx row q.2 isize)))
    (hins : c0.instance_acc = gate.queried_instance.map
      (fun q => colAt aInst q.1 (getRotationIdx row q.2 isize)))
    (hind : c0.instance_diff = gate.queried_instance.map
      (fun q => colAt nInst q.1 (getRotationIdx row q.2 isize)
        - colAt aInst q.1 (getRotationIdx row q.2 isize)))
    (hadv : c0.advice_acc = gate.queried_advice.map
      (fun q => colAt aAdv q.1 (getRotationIdx row q.2 isize)))
    (hadd : c0.advice_diff = gate.queried_advice.map
      (fun q => colAt nAdv q.1 (getRotationIdx row q.2 isize)
        - colAt aAdv q.1 (getRotationIdx row q.2 isize)))
    (hch : c0.challenge_evals = evaluatuatedChallenges
      (gate.queried_challenges.map (fun c => colAt aCh c.1 (c.2 - 1)))
      (gate.queried_challenges.map (fun c => colAt nCh c.1 (c.2 - 1)))
      c0.max_num_evals)
    (j d : Nat) (p : Expr F)
    (hp : gate.polys.get? j = some p)
    (hd : gate.degrees.get? j = some d)
    (hdk : 1 ≤ d + k)
    (hr : p.inRange gate = true)
    (hrl : runLoop c0 (List.range c0.max_num_evals) = some c') :
    entryAt c'.gate_eval j 0
      = some (gateEvalAt gate row isize pkSel pkFixed aInst aAdv aCh p)
    ∧ entryAt c'.gate_eval j 1
      = some (gateEvalAt gate row isize pkSel pkFixed nInst nAdv nCh p) := by
  obtain ⟨_, _, _, hent⟩ := runLoop_range_spec c0 _ c' hrl
  have hzip : (c0.gate.polys.zip c0.num_evals).get? j = some (p, d + 1 + k) := by
    rw [hgate, hnev]
    refine zip_get?_of _ _ j p (d + 1 + k) hp ?_
    rw [List.get?_map, hd]
    rfl
  have h0 := hent j p (d + 1 + k) 0 hzip (by omega) (by omega)
  have h1 := hent j p (d + 1 + k) 1 hzip (by omega) (by omega)
  have hch0 : c0.challenge_evals.getD 0 []
      = gate.queried_challenges.map (fun c => colAt aCh c.1 (c.2 - 1)) := by
    rw [hch]
    rfl
  have hch1 : c0.challenge_evals.getD 1 []
      = gate.queried_challenges.map (fun c => colAt nCh c.1 (c.2 - 1)) := by
    rw [hch]
    obtain ⟨m, hm⟩ : ∃ m, c0.max_num_evals - 1 = m + 1 :=
      ⟨c0.max_num_evals - 2, by omega⟩
    unfold evaluatuatedChallenges
    dsimp only
    rw [List.getD_cons_succ, hm]
    simp only [rowsIter, List.getD_cons_zero]
    unfold rowsNext
    rw [zipWith_map_same (fun c_acc c_new => c_new - c_acc)
        (fun c => colAt aCh c.1 (c.2 - 1)) (fun c => colAt nCh c.1 (c.2 - 1))
        gate.queried_challenges,
      zipWith_map_same (fun prev diff => prev + diff)
        (fun c => colAt aCh c.1 (c.2 - 1))
        (fun c => colAt nCh c.1 (c.2 - 1) - colAt aCh c.1 (c.2 - 1))
        gate.queried_challenges]
    refine List.map_congr_left ?_
    intro c _
    ring
  have hi1 : iterAcc c0.instance_acc c0.instance_diff 1
      = gate.queried_instance.map
          (fun q => colAt nInst q.1 (getRotationIdx row q.2 isize)) := by
    show zipWithKeep _ (iterAcc c0.instance_acc c0.instance_diff 0)
        c0.instance_diff = _
    rw [show iterAcc c0.instance_acc c0.instance_diff 0 = c0.instance_acc from rfl,
      hins, hind, zipWithKeep_map_map]
    refine List.map_congr_left ?_
    intro q _
    ring
  have ha1 : iterAcc c0.advice_acc c0.advice_diff 1
      = gate.queried_advice.map
          (fun q => colAt nAdv q.1 (getRotationIdx row q.2 isize)) := by
    show zipWithKeep _ (iterAcc c0.advice_acc c0.advice_diff 0)
        c0.advice_diff = _
    rw [show iterAcc c0.advice_acc c0.advice_diff 0 = c0.advice_acc from rfl,
      hadv, hadd, zipWithKeep_map_map]
    refine List.map_congr_left ?_
    intro q _
    ring
  constructor
  · rw [h0]
    simp only [iterAcc]
    rw [hsel, hfx, hins, hadv, hch0]
    exact congrArg some (evalExprBuf_maps gate row isize pkSel pkFixed
      aInst aAdv aCh p hr)
  · rw [h1, hsel, hfx, hi1, ha1, hch1]
    exact congrArg some (evalExprBuf_maps gate row isize pkSel pkFixed
      nInst nAdv nCh p hr)

end Protostar

namespace ProtostarProofs

open Protostar ProtostarDemo

/-- Claim C1: the fold is supposed to interpolate every instance value as
`(1-alpha)*x0 + alpha*x1`, so folding with `alpha = 0` must leave the
instance equal to `acc0`'s. The source instead computes
`i0 + (i1 - i0) * i1` (it multiplies by the other accumulator's instance
value `i1`, not by `alpha`), so with `alpha = 0`, `i0 = 0`, `i1 = 1` the
folded instance value is 1, not 0. -/
theorem instance_fold_uses_i1_not_alpha :
    (VerifierAccumulator.foldWith c1acc0 c1acc1 [] 0).instance_ = [[1]]
    ∧ (VerifierAccumulator.foldWith c1acc0 c1acc1 [] 0).instance_ ≠ c1acc0.instance_ := by
  decide

/-- Claim C3, counterexample: with `alpha = 0`, `beta_error0 = 0`,
`beta_error1 = 1` the source computes `(1-alpha) • e0 + 1 • e1 + ... = 1`,
while the claimed formula `(1-alpha) • e0 + alpha • e1 + alpha(1-alpha) • (...)`
evaluates to 0; the new beta-error commitment does not satisfy the claim. -/
theorem beta_error_fold_claim_cex :
    (VerifierAccumulator.foldWith c3acc0 c3acc1 [] 0).beta_error = 1
    ∧ ((1 - 0 : ZMod 5) • c3acc0.beta_error + (0 : ZMod 5) • c3acc1.beta_error
        + ((0 : ZMod 5) * (1 - 0)) •
            ((c3acc1.beta - c3acc0.beta) • c3acc0.beta_commitment
              + (c3acc0.beta - c3acc1.beta) • c3acc1.beta_commitment)) = 0
    ∧ (1 : ZMod 5) ≠ 0 := by
  decide

/-- Claim C3, amended: for every fold, the new beta-error commitment is
`(1-alpha) • beta_error0 + beta_error1 + alpha(1-alpha) • (C0 • (beta1-beta0)
+ C1 • (beta0-beta1))` - the `beta_error1` term has coefficient 1, not
`alpha`. -/
theorem beta_error_fold_formula {F G : Type} [Field F] [AddCommGroup G] [Module F G]
    (acc0 acc1 : VerifierAccumulator F G) (e_commitments : List F) (alpha : F) :
    (VerifierAccumulator.foldWith acc0 acc1 e_commitments alpha).beta_error
      = (1 - alpha) • acc0.beta_error + acc1.beta_error
        + (alpha * (1 - alpha)) •
            ((acc1.beta - acc0.beta) • acc0.beta_commitment
              + (acc0.beta - acc1.beta) • acc1.beta_commitment) := by
  simp [VerifierAccumulator.foldWith, one_smul, mul_comm]

/-- Claim C5: with `max_folding_constraints_degree() = 3` the fold must read
2 quotient coefficients; on a transcript with no scalars the read fails, and
because the source `unwrap`s every read inside a method returning `()`, the
failure is a panic (`none`): no `TranscriptError` value can reach the caller. -/
theorem fold_read_failure_panics :
    VerifierAccumulator.fold baseAcc baseAcc pkDeg3 emptyScalarsTr = none := by
  decide

/-- Claim C6, counterexample: with `D = max_folding_constraints_degree() + 1 = 4`
the claim says the verifier reads `D - 1 = 3` coefficients, but the fold
succeeds on a transcript holding only 2 scalars and consumes exactly 2 of
them (`D - 2`). -/
theorem fold_reads_two_not_three_cex :
    ((VerifierAccumulator.fold baseAcc baseAcc pkDeg3 twoScalarsTr).map
        (fun p => twoScalarsTr.scalars.length - p.2.scalars.length)) = some 2
    ∧ (2 : Nat) ≠ pkDeg3.max_folding_constraints_degree + 1 - 1 := by
  decide

/-- Claim C6, amended: with `D = max_folding_constraints_degree() + 1`, a fold
on a transcript holding at least `D - 2` scalars reads exactly the first
`D - 2` scalar coefficients in ascending order, then squeezes `alpha`, and
the new error is `alpha*(1-alpha)*evalPolynomial(coeffs, alpha)
+ (1-alpha)*error0 + alpha*error1` with the quotient evaluated by Horner's
rule on the coefficients read. -/
theorem fold_reads_quotient_then_squeezes {F G : Type} [Field F] [AddCommGroup G]
    [Module F G] (acc0 acc1 : VerifierAccumulator F G) (pk : PkShape)
    (tr : Transcript F G)
    (hd : 1 ≤ pk.max_folding_constraints_degree)
    (hlen : pk.max_folding_constraints_degree - 1 ≤ tr.scalars.length) :
    VerifierAccumulator.fold acc0 acc1 pk tr =
      some (VerifierAccumulator.foldWith acc0 acc1
          (tr.scalars.take (pk.max_folding_constraints_degree - 1))
          (squeezeChallenge
            { tr with scalars := tr.scalars.drop (pk.max_folding_constraints_degree - 1) }).1,
        (squeezeChallenge
          { tr with scalars := tr.scalars.drop (pk.max_folding_constraints_degree - 1) }).2)
    ∧ ∀ (es : List F) (a : F),
        (VerifierAccumulator.foldWith acc0 acc1 es a).error
          = a * (1 - a) * evalPolynomial es a + (1 - a) * acc0.error + a * acc1.error := by
  constructor
  · unfold VerifierAccumulator.fold
    have h2 : ¬ (pk.max_folding_constraints_degree + 1 < 2) := by omega
    rw [if_neg h2]
    have h3 : pk.max_folding_constraints_degree + 1 - 2
        = pk.max_folding_constraints_degree - 1 := by omega
    rw [h3, readScalars_of_le _ tr hlen]
  · intro es a
    simp [VerifierAccumulator.foldWith]

/-- Witness for the amended claim C6 at `max_folding_constraints_degree = 3`
and a transcript holding exactly two scalars. -/
theorem fold_reads_quotient_then_squeezes_witness :
    (1 ≤ pkDeg3.max_folding_constraints_degree
      ∧ pkDeg3.max_folding_constraints_degree - 1 ≤ twoScalarsTr.scalars.length)
    ∧ (VerifierAccumulator.fold baseAcc baseAcc pkDeg3 twoScalarsTr =
        some (VerifierAccumulator.foldWith baseAcc baseAcc
            (twoScalarsTr.scalars.take (pkDeg3.max_folding_constraints_degree - 1))
            (squeezeChallenge
              { twoScalarsTr with
                scalars := twoScalarsTr.scalars.drop
                  (pkDeg3.max_folding_constraints_degree - 1) }).1,
          (squeezeChallenge
            { twoScalarsTr with
              scalars := twoScalarsTr.scalars.drop
                (pkDeg3.max_folding_constraints_degree - 1) }).2)
      ∧ ∀ (es : List (ZMod 5)) (a : ZMod 5),
          (VerifierAccumulator.foldWith baseAcc baseAcc es a).error
            = a * (1 - a) * evalPolynomial es a + (1 - a) * baseAcc.error
              + a * baseAcc.error) :=
  ⟨⟨by decide, by decide⟩,
    fold_reads_quotient_then_squeezes baseAcc baseAcc pkDeg3 twoScalarsTr
      (by decide) (by decide)⟩

/-- Claim C2: the skip condition in `evaluate` is `eval_idx > num_evals[j]`,
so at `X = num_evals[j] = degrees[j] + 1 + k_extra` the code still writes
`gate_eval[j][X]`, one slot past the buffer of length `num_evals[j]`. On a
gate with degrees `[1, 2]` and `k_extra = 0`, `max_num_evals = 3` and the
write at `X = 2` for constraint 0 (buffer length 2) is out of bounds: the
evaluation panics. -/
theorem evaluate_oob_write_panics :
    GateEvaluationCache.evaluate (GateEvaluationCache.new c2gate [] [] 0)
      0 1 [] [] [] [[1]] [] [[2]] = EvalOutcome.panic := by
  decide

/-- Claim C4, counterexample: a query of column 0 at rotation `-1`, read at
row 0 of a column of length 2 (domain size 2). The claim says the value
loaded is the one at index `(0 + (-1)) mod 2 = 1`, i.e. `some [4]`; but
`Row::fill_row_with_rotations` performs no modular reduction, casts the
negative index to a huge `usize` and panics on the out-of-range read. -/
theorem row_rotation_not_modular_cex :
    fillRowWithRotations (F := ZMod 5) 0 [(0, -1)] [[3, 4]] = none
    ∧ fillRowWithRotations (F := ZMod 5) 0 [(0, -1)] [[3, 4]] ≠ some [4] := by
  decide

/-- Claim C9: when the gate has a simple selector whose column is false at
the row, `evaluate` returns the skipped outcome and the only cache field that
changes is the recorded `simple_selector` value: selectors, fixed,
instance/advice buffers, challenge table and `gate_eval` are all left
untouched. -/
theorem evaluate_skips_when_selector_off {F : Type} [Field F]
    (c : GateEvaluationCache F) (row : Nat) (isize : Int)
    (pk_selectors : List (List Bool))
    (pk_fixed acc_instance acc_advice new_instance new_advice : List (List F))
    (s : Nat) (hs : c.gate.simple_selector = some s)
    (hoff : boolAt pk_selectors s row = false) :
    c.evaluate row isize pk_selectors pk_fixed acc_instance acc_advice
        new_instance new_advice
      = EvalOutcome.skipped { c with simple_selector := some false } := by
  simp [GateEvaluationCache.evaluate, GateEvaluationCache.populate, hs, hoff]

/-- Witness for claim C9: the gate `c9gate` is guarded by selector column 0,
which is false at row 0 of the selector table `[[false]]`. -/
theorem evaluate_skips_when_selector_off_witness :
    (c9cache.gate.simple_selector = some 0
      ∧ boolAt [[false]] 0 0 = false)
    ∧ c9cache.evaluate 0 1 [[false]] [] [] [] [] []
        = EvalOutcome.skipped { c9cache with simple_selector := some false } :=
  ⟨⟨by decide, by decide⟩,
    evaluate_skips_when_selector_off c9cache 0 1 [[false]] [] [] [] [] [] 0
      (by decide) (by decide)⟩

/-- Claim C10: every accumulator returned successfully by `new_from_prover`
starts with zero accumulated error (`error = 0`), an identity beta-error
commitment, and keeps the instances argument verbatim. -/
theorem new_from_prover_zero_error {F G : Type} [Field F] [AddCommGroup G]
    [Module F G] (tr tr2 : Transcript F G) (instances : List (List F))
    (pk : PkShape) (acc : VerifierAccumulator F G)
    (h : VerifierAccumulator.new_from_prover tr instances pk = .ok (acc, tr2)) :
    acc.error = 0 ∧ acc.beta_error = 0 ∧ acc.instance_ = instances := by
  unfold VerifierAccumulator.new_from_prover at h
  dsimp only at h
  split at h
  · exact absurd h (by simp)
  · split at h
    · exact absurd h (by simp)
    · split at h
      · exact absurd h (by simp)
      · split at h
        · exact absurd h (by simp)
        · split at h
          · exact absurd h (by simp)
          · simp only [Except.ok.injEq, Prod.mk.injEq] at h
            obtain ⟨h1, _⟩ := h
            rw [← h1]
            exact ⟨rfl, rfl, rfl⟩

/-- Witness for claim C10 at a concrete proving-key shape and transcript. -/
theorem new_from_prover_zero_error_witness :
    (VerifierAccumulator.new_from_prover c10tr [[2]] c10pk
        = .ok ((c10acc : VerifierAccumulator (ZMod 5) (ZMod 5)), c10trOut))
    ∧ (c10acc.error = 0 ∧ c10acc.beta_error = 0 ∧ c10acc.instance_ = [[2]]) :=
  ⟨by rfl,
    new_from_prover_zero_error c10tr c10trOut [[2]] c10pk c10acc (by rfl)⟩

/-- Claim C4, amended: the two rotation paths differ. In the gate.rs path
(`get_rotation_idx`, used by `GateEvaluationCache::populate`/`fillRow`), the
loaded value is the column value at `((row + rot) mod dsize)` interpreted as
an unsigned in-range index, so rotation `-1` at row 0 reads row `dsize - 1`
and `+1` at the last row reads row 0. In the row.rs path
(`Row::fill_row_with_rotations`) the index is the unreduced `row + rot`,
which must already be in range: the values loaded are the column values at
`row + rot` with no wraparound. -/
theorem rotation_indexing_amended {F : Type} [Field F]
    (row dsize : Nat) (rot : Int)
    (h1 : row < dsize) (h2 : dsize ≤ 2 ^ 30) (h3 : rot.natAbs ≤ dsize)
    (c : GateEvaluationCache F) (pk_selectors : List (List Bool))
    (pk_fixed acc_instance acc_advice new_instance new_advice : List (List F))
    (hqf : ∀ q ∈ c.gate.queried_fixed, q.2.natAbs ≤ dsize)
    (queries : List (Nat × Int)) (columns : List (List F))
    (hq : ∀ q ∈ queries, q.2.natAbs ≤ dsize ∧ 0 ≤ (row : Int) + q.2
      ∧ q.1 < columns.length
      ∧ ((row : Int) + q.2).toNat < (columns.getD q.1 []).length) :
    getRotationIdx row rot (dsize : Int)
      = (((row : Int) + rot) % (dsize : Int)).toNat
    ∧ (c.fillRow row (dsize : Int) pk_selectors pk_fixed acc_instance
          acc_advice new_instance new_advice).fixed
        = c.gate.queried_fixed.map
            (fun q => colAt pk_fixed q.1 ((((row : Int) + q.2) % (dsize : Int)).toNat))
    ∧ fillRowWithRotations row queries columns
        = some (queries.map
            (fun q => (columns.getD q.1 []).getD ((row : Int) + q.2).toNat 0)) := by
  refine ⟨getRotationIdx_mod row dsize rot h1 h2 h3, ?_,
    fillRowWithRotations_in_range row dsize h1 h2 queries columns hq⟩
  unfold GateEvaluationCache.fillRow
  dsimp only
  exact List.map_congr_left
    (fun q hmem => by rw [getRotationIdx_mod row dsize q.2 h1 h2 (hqf q hmem)])

/-- Witness for the amended claim C4: domain size 2, a gate fixed query at
rotation `+1` read at row 0, and a row.rs query at rotation `+1` on a
two-entry column. -/
theorem rotation_indexing_amended_witness :
    ((0 : Nat) < 2 ∧ (2 : Nat) ≤ 2 ^ 30 ∧ (Int.natAbs (-1) ≤ 2)
      ∧ (∀ q ∈ c4cache.gate.queried_fixed, q.2.natAbs ≤ 2)
      ∧ (∀ q ∈ ([(0, 1)] : List (Nat × Int)),
          q.2.natAbs ≤ 2 ∧ 0 ≤ ((0 : Nat) : Int) + q.2
          ∧ q.1 < ([[(3 : ZMod 5), 4]] : List (List (ZMod 5))).length
          ∧ (((0 : Nat) : Int) + q.2).toNat
              < (([[(3 : ZMod 5), 4]] : List (List (ZMod 5))).getD q.1 []).length))
    ∧ (getRotationIdx 0 (-1) ((2 : Nat) : Int)
          = ((((0 : Nat) : Int) + (-1)) % (((2 : Nat) : Int))).toNat
      ∧ (c4cache.fillRow 0 ((2 : Nat) : Int) [] [[3, 4]] [] [] [] []).fixed
          = c4cache.gate.queried_fixed.map
              (fun q => colAt [[3, 4]] q.1 ((((((0 : Nat) : Int)) + q.2) % (((2 : Nat) : Int))).toNat))
      ∧ fillRowWithRotations 0 [(0, 1)] [[(3 : ZMod 5), 4]]
          = some (([(0, 1)] : List (Nat × Int)).map
              (fun q => (([[(3 : ZMod 5), 4]] : List (List (ZMod 5))).getD q.1 []).getD
                ((((0 : Nat) : Int)) + q.2).toNat 0))) :=
  ⟨⟨by decide, by decide, by decide, by decide, by decide⟩,
    rotation_indexing_amended 0 2 (-1) (by decide) (by decide) (by decide)
      c4cache [] [[3, 4]] [] [] [] [] (by decide) [(0, 1)] [[3, 4]] (by decide)⟩

/-- Claim C8: for equal-length challenge-power vectors, the incrementally
computed table of `evaluatuated_challenges` (row 0 is `challenges_acc`, each
later row adds the per-entry difference) agrees with the closed form
`T[X][q] = challenges_acc[q] + X * (challenges_new[q] - challenges_acc[q])`
for every `X < num_evals` and every entry `q`. -/
theorem challenge_table_closed_form {F : Type} [Field F]
    (challenges_acc challenges_new : List F) (num_evals X q : Nat)
    (hlen : challenges_acc.length = challenges_new.length)
    (hX : X < num_evals) (hq : q < challenges_acc.length) :
    ((evaluatuatedChallenges challenges_acc challenges_new num_evals).getD X []).getD q 0
      = challenges_acc.getD q 0
        + (X : F) * (challenges_new.getD q 0 - challenges_acc.getD q 0) := by
  have hdlen : (List.zipWith (fun c_acc c_new => c_new - c_acc)
      challenges_acc challenges_new).length = challenges_acc.length := by
    simp [hlen]
  have hdq : (List.zipWith (fun c_acc c_new => c_new - c_acc)
        challenges_acc challenges_new).getD q 0
      = challenges_new.getD q 0 - challenges_acc.getD q 0 :=
    zipWith_getD _ _ _ q hq (by omega) 0 0 0
  unfold evaluatuatedChallenges
  cases X with
  | zero =>
    simp
  | succ X =>
    have h1 : X < num_evals - 1 := by omega
    simp only [List.getD_cons_succ]
    rw [List.getD_eq_getD_get? _ _ X, rowsIter_get? _ _ _ _ h1]
    simp only [Option.getD_some]
    rw [iterRow_getD _ _ (by omega) _ _ hq, hdq]

/-- Claim C7: whenever `evaluate` returns `Some` on a cache built by `new`,
then for every constraint `j` of the gate (with folding degree `d`, and
`d + k_extra ≥ 1` so that the sample at `X = 1` exists), `gate_eval[j][0]`
equals the constraint evaluated on the row data of the first accumulator
with its challenge powers, and `gate_eval[j][1]` equals the constraint
evaluated on the row data of the second accumulator with its challenge
powers. -/
theorem gate_eval_endpoints {F : Type} [Field F]
    (gate : Gate F) (acc_challenges new_challenges : List (List F)) (k : Nat)
    (row : Nat) (isize : Int) (pk_selectors : List (List Bool))
    (pk_fixed acc_instance acc_advice new_instance new_advice : List (List F))
    (c' : GateEvaluationCache F) (j d : Nat) (p : Expr F)
    (hp : gate.polys.get? j = some p)
    (hd : gate.degrees.get? j = some d)
    (hdk : 1 ≤ d + k)
    (hr : p.inRange gate = true)
    (h : (GateEvaluationCache.new gate acc_challenges new_challenges k).evaluate
        row isize pk_selectors pk_fixed acc_instance acc_advice new_instance
        new_advice = EvalOutcome.ok c') :
    entryAt c'.gate_eval j 0
      = some (gateEvalAt gate row isize pk_selectors pk_fixed acc_instance
          acc_advice acc_challenges p)
    ∧ entryAt c'.gate_eval j 1
      = some (gateEvalAt gate row isize pk_selectors pk_fixed new_instance
          new_advice new_challenges p) := by
  have hdm : d ∈ gate.degrees := List.get?_mem hd
  have hdle := foldlMax_mem_le gate.degrees d hdm 0
  have hmax2 : 2 ≤ (GateEvaluationCache.new gate acc_challenges
      new_challenges k).max_num_evals := by
    show 2 ≤ gate.degrees.foldl Nat.max 0 + 1 + k
    omega
  unfold GateEvaluationCache.evaluate at h
  dsimp only at h
  unfold GateEvaluationCache.populate at h
  rw [show (GateEvaluationCache.new gate acc_challenges new_challenges k).gate
      = gate from rfl] at h
  cases hss : gate.simple_selector with
  | none =>
    rw [hss] at h
    dsimp only at h
    rw [fillRow_simple_selector] at h
    rw [show (GateEvaluationCache.new gate acc_challenges
        new_challenges k).simple_selector = (none : Option Bool) from rfl] at h
    dsimp only at h
    split at h
    · simp at h
    · rename_i c2 hrl
      simp only [EvalOutcome.ok.injEq] at h
      subst h
      refine evaluate_endpoints_aux gate acc_challenges new_challenges k row
        isize pk_selectors pk_fixed acc_instance acc_advice new_instance
        new_advice _ c2 ?_ ?_ ?_ ?_ ?_ ?_ ?_ ?_ ?_ ?_ j d p hp hd hdk hr hrl
      · rfl
      · rfl
      · exact hmax2
      · rfl
      · rfl
      · rfl
      · rfl
      · rfl
      · rfl
      · rfl
  | some s =>
    rw [hss] at h
    dsimp only at h
    by_cases hv : boolAt pk_selectors s row = true
    · rw [hv, if_pos rfl] at h
      rw [fillRow_simple_selector] at h
      dsimp only at h
      split at h
      · simp at h
      · rename_i c2 hrl
        simp only [EvalOutcome.ok.injEq] at h
        subst h
        refine evaluate_endpoints_aux gate acc_challenges new_challenges k row
          isize pk_selectors pk_fixed acc_instance acc_advice new_instance
          new_advice _ c2 ?_ ?_ ?_ ?_ ?_ ?_ ?_ ?_ ?_ ?_ j d p hp hd hdk hr hrl
        · rfl
        · rfl
        · exact hmax2
        · rfl
        · rfl
        · rfl
        · rfl
        · rfl
        · rfl
        · rfl
    · have hv2 : boolAt pk_selectors s row = false := by
        revert hv
        cases boolAt pk_selectors s row <;> simp
      rw [hv2, if_neg (by simp)] at h
      dsimp only at h
      simp at h

/-- Witness for claim C7: the gate `c7gate` (one constraint
`advice0 * advice0`) evaluated at row 0 with accumulator advice 1 and new
advice 2 over `ZMod 5`; the samples at `X = 0` and `X = 1` are 1 and 4. -/
theorem gate_eval_endpoints_witness :
    (c7gate.polys.get? 0 = some (Expr.Product (Expr.Advice 0) (Expr.Advice 0))
      ∧ c7gate.degrees.get? 0 = some 2
      ∧ 1 ≤ 2 + 0
      ∧ Expr.inRange c7gate (Expr.Product (Expr.Advice 0) (Expr.Advice 0)) = true
      ∧ (GateEvaluationCache.new c7gate [] [] 0).evaluate 0 1 [] [] [] [[1]] []
          [[2]] = EvalOutcome.ok c7cacheOut)
    ∧ (entryAt c7cacheOut.gate_eval 0 0
        = some (gateEvalAt c7gate 0 1 [] [] [] [[1]] []
            (Expr.Product (Expr.Advice 0) (Expr.Advice 0)))
      ∧ entryAt c7cacheOut.gate_eval 0 1
        = some (gateEvalAt c7gate 0 1 [] [] [] [[2]] []
            (Expr.Product (Expr.Advice 0) (Expr.Advice 0)))) :=
  ⟨⟨by decide, by decide, by decide, by decide, by decide⟩,
    gate_eval_endpoints c7gate [] [] 0 0 1 [] [] [] [[1]] [] [[2]] c7cacheOut
      0 2 (Expr.Product (Expr.Advice 0) (Expr.Advice 0)) (by decide) (by decide)
      (by decide) (by decide) (by decide)⟩

/-- Witness for claim C8 at a concrete pair of challenge vectors over
`ZMod 5` with three sample rows. -/
theorem challenge_table_closed_form_witness :
    (([1, 2] : List (ZMod 5)).length = ([3, 4] : List (ZMod 5)).length
      ∧ 2 < 3 ∧ 1 < ([1, 2] : List (ZMod 5)).length)
    ∧ ((evaluatuatedChallenges [1, 2] [3, 4] 3).getD 2 []).getD 1 0
        = ([1, 2] : List (ZMod 5)).getD 1 0
          + ((2 : Nat) : ZMod 5)
            * (([3, 4] : List (ZMod 5)).getD 1 0 - ([1, 2] : List (ZMod 5)).getD 1 0) :=
  ⟨⟨by decide, by decide, by decide⟩,
    challenge_table_closed_form [1, 2] [3, 4] 3 2 1 (by decide) (by decide) (by decide)⟩

end ProtostarProofs
